import Mathlib

/-!
Verification of the dynamic array (`Vector<Type>` in `src/advanced-vector/vector.h`)
and the spec's Optional Box.

The array is modelled by its list of live elements (slots `[0, size_)`) together
with the capacity of its `RawMemory` block; `size_` equals the length of that list
in every state reachable by the public operations.  Reading a slot that holds no
live element (index `≥ size_`) is undefined behaviour in the source, so slot reads
return `Option`: `none` marks a read of uninitialized storage.
-/

structure Vec (α : Type) where
  elems : List α
  cap : Nat
deriving DecidableEq, Repr

namespace Vec

variable {α : Type}

/-- `Size()` — the `size_` field. -/
def size (v : Vec α) : Nat := v.elems.length

/-- `Capacity()` — capacity of the owned `RawMemory` block. -/
def capacity (v : Vec α) : Nat := v.cap

/-- `Vector() = default` — empty block (`buffer_ = nullptr, capacity_ = 0`), `size_ = 0`. -/
def nil : Vec α := ⟨[], 0⟩

/-- Class invariant: `size_ ≤ capacity_`. -/
def wf (v : Vec α) : Prop := v.size ≤ v.cap

/-- Reading slot `i` of the buffer: `some` when the slot holds a live element
(`i < size_`), `none` when the storage there is raw/uninitialized (UB to read). -/
def read (v : Vec α) (i : Nat) : Option α := v.elems[i]?

/-- Reading the `count` consecutive slots starting at `start`; `none` as soon as
any of them is uninitialized. -/
def readRange (v : Vec α) (start count : Nat) : Option (List α) :=
  (List.range count).mapM (fun k => v.read (start + k))

/-- `Reserve(new_capacity)`, lines 152-164: early return when
`new_capacity <= data_.Capacity()`; otherwise a new block of the requested
capacity is filled (by move or copy, both value-preserving here) with the
`size_` live elements, the blocks are swapped and the old elements destroyed. -/
def reserve (v : Vec α) (n : Nat) : Vec α :=
  if n ≤ v.cap then v
  else { elems := v.elems, cap := n }

/-- `Swap`, lines 166-169: blocks and sizes are exchanged.  The pair is
(state of `*this` after, state of `other` after). -/
def swap (a b : Vec α) : Vec α × Vec α := (b, a)

/-- `Vector(Vector&& rhs)`, lines 108-110: the members are default-initialized
(empty block, `size_ = 0`), then `Swap(rhs)`.  The pair is
(the constructed vector, the moved-from `rhs`). -/
def moveCtor (s : Vec α) : Vec α × Vec α := swap nil s

/-- `operator=(Vector&&)`, lines 124-129: identity check (`same` models
`this == &rhs`), then `Swap(rhs)`.  The pair is (target after, source after). -/
def moveAssign (t s : Vec α) (same : Bool) : Vec α × Vec α :=
  if same then (t, s) else swap t s

/-- `Emplace(pos, args...)` (lines 227-266) with the argument value already
materialized: in every branch of the source the new element is constructed from
`args` before any existing element is touched (directly at `new_data + index` in
the reallocating branch, as the temporary `new_elem` in the shifting branch, at
`data_ + size_` in the tail branch), so the value `x` passed here is the value
the arguments held on entry.  Branch structure follows the source:
`size_ == Capacity()` reallocates with the doubling rule; otherwise a non-end
position shifts the tail right by one; otherwise the element is constructed in
the slot past the last. -/
def emplaceVal (v : Vec α) (i : Nat) (x : α) : Vec α :=
  if v.size = v.cap then
    { elems := v.elems.take i ++ x :: v.elems.drop i
      cap := if v.size = 0 then 1 else v.size * 2 }
  else if v.size ≠ 0 ∧ i ≠ v.size then
    { elems := v.elems.take i ++ x :: v.elems.drop i, cap := v.cap }
  else
    { elems := v.elems ++ [x], cap := v.cap }

/-- `Insert(pos, value)`, lines 283-289: forwards to `Emplace`. -/
def insert (v : Vec α) (i : Nat) (x : α) : Vec α := v.emplaceVal i x

/-- `PushBack`/`EmplaceBack`, lines 182-193: `Emplace(cend(), ...)`, i.e. index `size_`. -/
def pushBack (v : Vec α) (x : α) : Vec α := v.emplaceVal v.size x

/-- `PopBack`, lines 195-201: early return when `size_ == 0`; otherwise the last
live element is destroyed and `size_` decremented. -/
def popBack (v : Vec α) : Vec α :=
  if v.size = 0 then v else { elems := v.elems.dropLast, cap := v.cap }

/-- `Erase(pos)`, lines 268-281: the elements after `pos` are shifted one slot
left (move or copy assignment, value-preserving here), the vacated last slot is
destroyed and `size_` decremented. -/
def erase (v : Vec α) (i : Nat) : Vec α :=
  { elems := v.elems.take i ++ v.elems.drop (i + 1), cap := v.cap }

/-- `FillFromOther(other)`, lines 292-298: `index = min(other.size_, size_)`;
`copy_n` overwrites the first `index` targets with `other`'s first `index`
elements; `destroy_n` removes the surplus targets; then
`uninitialized_copy_n(std::next(other.data_ + index), other.size_ - index, pos)`
copy-constructs the tail — reading the source slots starting at `index + 1`
(the extra `std::next` on the raw pointer).  A read of an uninitialized source
slot is UB, reported as `none`. -/
def fillFromOther (t s : Vec α) : Option (Vec α) :=
  let index := min s.size t.size
  let newOverlap := s.elems.take index
  match s.readRange (index + 1) (s.size - index) with
  | none => none
  | some tailVals => some { elems := newOverlap ++ tailVals, cap := t.cap }

/-- `operator=(const Vector&)` for distinct objects, lines 112-122: when
`rhs.size_ > data_.Capacity()`, copy-and-swap via the copy constructor (which
allocates a block of exactly `other.size_`); otherwise `FillFromOther(rhs)`. -/
def copyAssignNe (t s : Vec α) : Option (Vec α) :=
  if s.size > t.cap then some { elems := s.elems, cap := s.size }
  else t.fillFromOther s

/-- `operator=(const Vector&)`, lines 112-122, with `same` modelling the
identity check `this == &rhs`. -/
def copyAssign (t s : Vec α) (same : Bool) : Option (Vec α) :=
  if same then some t else t.copyAssignNe s

end Vec

/-- The new element's list of the successful `Emplace`: old prefix, new value,
old suffix — provided the position is in range. -/
theorem Vec.emplaceVal_elems {α : Type} (v : Vec α) (i : Nat) (x : α) (h : i ≤ v.size) :
    (v.emplaceVal i x).elems = v.elems.take i ++ x :: v.elems.drop i := by
  unfold Vec.emplaceVal
  by_cases h1 : v.size = v.cap
  · simp [h1]
  · simp only [h1, if_false]
    by_cases h2 : v.size ≠ 0 ∧ i ≠ v.size
    · simp [h2]
    · have hi : i = v.size := by
        rcases Decidable.not_and_iff_or_not.mp h2 with h0 | hne
        · have : v.size = 0 := by omega
          omega
        · omega
      have hi' : i = v.elems.length := hi
      simp [h2, hi', List.take_of_length_le (Nat.le_refl _), List.drop_of_length_le (Nat.le_refl _)]

/-- Implicit aliasing discipline of `Insert(pos, v[k])` (lines 227-266, 283-289):
in every branch of `Emplace` the new element is constructed from the argument
before any existing element is moved, copied or overwritten (directly at
`new_data + index` in the reallocating branch, as the temporary `new_elem` in
the shifting branch, at `data_ + size_` in the tail branch), so the value
captured is the one `v[k]` held on entry.  A `k` outside the live range is UB
(`operator[]` asserts `index < size_`), reported as `none`. -/
def Vec.insertAliased {α : Type} (v : Vec α) (i k : Nat) : Option (Vec α) :=
  match v.read k with
  | none => none
  | some x => some (v.emplaceVal i x)

/-- C4: `Reserve(n)` is a no-op when `n ≤ Capacity()`; it never decreases the
capacity, never changes `Size()` or any element value, and afterwards the
capacity is at least `n`. -/
theorem reserve_spec {α : Type} (v : Vec α) (n : Nat) :
    (n ≤ v.capacity → v.reserve n = v) ∧
    v.capacity ≤ (v.reserve n).capacity ∧
    (v.reserve n).size = v.size ∧
    (v.reserve n).elems = v.elems ∧
    n ≤ (v.reserve n).capacity := by
  unfold Vec.reserve Vec.capacity Vec.size
  by_cases h : n ≤ v.cap
  · simp [h]
  · simp [h]
    omega

/-- Witness for `reserve_spec` at `v = ⟨[5], 2⟩`, `n = 1`. -/
theorem reserve_spec_witness :
    (1 ≤ (⟨[5], 2⟩ : Vec Nat).capacity) ∧ (⟨[5], 2⟩ : Vec Nat).reserve 1 = ⟨[5], 2⟩ :=
  ⟨by decide, (reserve_spec (⟨[5], 2⟩ : Vec Nat) 1).1 (by decide)⟩

/-- C5: pushing 0,1,2,3,4 onto a default-constructed vector gives size 5 with
element 2 at index 2; erasing at index 2 gives 0,1,3,4; inserting 9 at index 1
then gives 0,9,1,3,4. -/
theorem push_erase_insert_scenario :
    (((((Vec.nil.pushBack 0).pushBack 1).pushBack 2).pushBack 3).pushBack 4).size = 5 ∧
    (((((Vec.nil.pushBack 0).pushBack 1).pushBack 2).pushBack 3).pushBack 4).read 2 = some 2 ∧
    ((((((Vec.nil.pushBack 0).pushBack 1).pushBack 2).pushBack 3).pushBack 4).erase 2).elems
      = [0, 1, 3, 4] ∧
    (((((((Vec.nil.pushBack 0).pushBack 1).pushBack 2).pushBack 3).pushBack 4).erase 2).insert 1 9).elems
      = [0, 9, 1, 3, 4] := by
  decide

/-- C6: `Insert(pos, v)` followed by `Erase` at the same position restores the
original sequence of element values (same size, same value at every index). -/
theorem insert_erase_roundtrip {α : Type} (v : Vec α) (i : Nat) (x : α) (h : i ≤ v.size) :
    ((v.insert i x).erase i).elems = v.elems ∧ ((v.insert i x).erase i).size = v.size := by
  have he : (v.insert i x).elems = v.elems.take i ++ x :: v.elems.drop i :=
    Vec.emplaceVal_elems v i x h
  have hlen : (v.elems.take i).length = i := by
    have hsz : i ≤ v.elems.length := h
    simp [List.length_take]
    omega
  have h1 : (v.elems.take i ++ x :: v.elems.drop i).take i = v.elems.take i := by
    have ht := List.take_left (v.elems.take i) (x :: v.elems.drop i)
    rwa [hlen] at ht
  have h2 : (v.elems.take i ++ x :: v.elems.drop i).drop (i + 1) = v.elems.drop i := by
    have hassoc : v.elems.take i ++ x :: v.elems.drop i
        = (v.elems.take i ++ [x]) ++ v.elems.drop i := by simp
    have hlen2 : (v.elems.take i ++ [x]).length = i + 1 := by simp [hlen]
    have hd := List.drop_left (v.elems.take i ++ [x]) (v.elems.drop i)
    rwa [hlen2, ← hassoc] at hd
  have hmain : ((v.insert i x).erase i).elems = v.elems := by
    simp only [Vec.erase, he, h1, h2]
    exact List.take_append_drop i v.elems
  exact ⟨hmain, by simp only [Vec.size, hmain]⟩

/-- Witness for `insert_erase_roundtrip` at `v = ⟨[1,2], 2⟩`, `i = 1`, `x = 9`. -/
theorem insert_erase_roundtrip_witness :
    (1 ≤ (⟨[1, 2], 2⟩ : Vec Nat).size) ∧
    (((⟨[1, 2], 2⟩ : Vec Nat).insert 1 9).erase 1).elems = [1, 2] ∧
    (((⟨[1, 2], 2⟩ : Vec Nat).insert 1 9).erase 1).size = 2 :=
  ⟨by decide, insert_erase_roundtrip (⟨[1, 2], 2⟩ : Vec Nat) 1 9 (by decide)⟩

/-- C7: `PopBack` on a non-empty vector destroys the last live element and
decrements `Size()` by one; on an empty vector it is a no-op (and, being a
total function here, raises nothing). -/
theorem popBack_spec {α : Type} (v : Vec α) :
    (v.size = 0 → v.popBack = v) ∧
    (v.size ≠ 0 →
      (v.popBack).elems = v.elems.dropLast ∧
      (v.popBack).size = v.size - 1 ∧
      (v.popBack).capacity = v.capacity) := by
  constructor
  · intro h
    unfold Vec.popBack
    rw [if_pos h]
  · intro h
    unfold Vec.popBack
    rw [if_neg h]
    exact ⟨rfl, List.length_dropLast v.elems, rfl⟩

/-- Witness for `popBack_spec` at `v = ⟨[7], 1⟩`. -/
theorem popBack_spec_witness :
    ((⟨[7], 1⟩ : Vec Nat).size ≠ 0) ∧
    ((⟨[7], 1⟩ : Vec Nat).popBack.elems = [7].dropLast ∧
     (⟨[7], 1⟩ : Vec Nat).popBack.size = (⟨[7], 1⟩ : Vec Nat).size - 1 ∧
     (⟨[7], 1⟩ : Vec Nat).popBack.capacity = (⟨[7], 1⟩ : Vec Nat).capacity) :=
  ⟨by decide, (popBack_spec (⟨[7], 1⟩ : Vec Nat)).2 (by decide)⟩

/-- C8: self-assignment (copy or move) is caught by the identity check and is a
no-op: the vector keeps its size, capacity and element values. -/
theorem self_assign_noop {α : Type} (v : Vec α) :
    v.copyAssign v true = some v ∧ v.moveAssign v true = (v, v) :=
  ⟨rfl, rfl⟩

/-- C2 counterexample: after move assignment from a distinct vector, the
moved-from vector holds the target's previous (non-empty) contents — its size
is 1, not 0, refuting "the moved-from vector is empty" for move assignment. -/
theorem moveAssign_movedFrom_not_empty :
    ((Vec.moveAssign (⟨[1], 1⟩ : Vec Nat) ⟨[2], 1⟩ false).2).size ≠ 0 := by
  decide

/-- C2 amended: move construction, move assignment and `Swap` are total
(never-failing) exchanges: move construction leaves the moved-from vector
empty, while move assignment exchanges target and source, so the moved-from
vector receives the target's previous contents. -/
theorem move_ops_spec {α : Type} (t s a b : Vec α) :
    Vec.moveCtor s = (s, Vec.nil) ∧
    ((Vec.moveCtor s).2).size = 0 ∧
    Vec.moveAssign t s false = (s, t) ∧
    Vec.swap a b = (b, a) :=
  ⟨rfl, rfl, rfl, rfl⟩

/-- C10: `Insert(pos, v[k])` with an argument aliasing the vector's own storage
inserts the value `v[k]` held before the call: the result is the old sequence
with that old value placed at the insertion index. -/
theorem insertAliased_uses_old_value {α : Type} (v : Vec α) (i k : Nat) (x : α)
    (hk : v.read k = some x) (hi : i ≤ v.size) :
    ∃ w, v.insertAliased i k = some w ∧
      w.elems = v.elems.take i ++ x :: v.elems.drop i := by
  refine ⟨v.emplaceVal i x, ?_, Vec.emplaceVal_elems v i x hi⟩
  unfold Vec.insertAliased
  rw [hk]

/-- Witness for `insertAliased_uses_old_value` at `v = ⟨[3,4], 2⟩`, `i = 0`,
`k = 1` (a full vector, so insertion reallocates). -/
theorem insertAliased_uses_old_value_witness :
    ((⟨[3, 4], 2⟩ : Vec Nat).read 1 = some 4) ∧ (0 ≤ (⟨[3, 4], 2⟩ : Vec Nat).size) ∧
    ∃ w, (⟨[3, 4], 2⟩ : Vec Nat).insertAliased 0 1 = some w ∧
      w.elems = (⟨[3, 4], 2⟩ : Vec Nat).elems.take 0 ++ 4 :: (⟨[3, 4], 2⟩ : Vec Nat).elems.drop 0 :=
  ⟨by decide, by decide,
    insertAliased_uses_old_value (⟨[3, 4], 2⟩ : Vec Nat) 0 1 4 (by decide) (by decide)⟩

/-- C1: evaluation of copy assignment at the failing input `t = ⟨[10], 2⟩`,
`s = ⟨[1, 2], 2⟩` (`s.Size() = 2 ≤ t.Capacity() = 2`, distinct objects).
`FillFromOther` copy-constructs the tail from `std::next(other.data_ + index)`,
i.e. from source slot `index + 1 = 2` — the slot at `other.size_`, which holds
no live element — instead of slot `index = 1`; the read of uninitialized
storage (UB) surfaces as `none`, where the claim requires the result
`⟨[1, 2], _⟩`. -/
theorem copyAssign_tail_off_by_one :
    Vec.copyAssign (⟨[10], 2⟩ : Vec Nat) ⟨[1, 2], 2⟩ false = none ∧
    Vec.fillFromOther (⟨[10], 2⟩ : Vec Nat) ⟨[1, 2], 2⟩ = none := by
  constructor <;> rfl

/-- A fallible element copy: `c x` is the value produced by copy-constructing
from `x` (or copy-assigning `x` onto a slot); `Except.error` models a thrown
exception.  `copyN` is `std::uninitialized_copy_n` with such a copy: the copies
are constructed in order and, when one throws, the copies already constructed
by this call are destroyed, leaving nothing in the destination range. -/
def copyN {α ε : Type} (c : α → Except ε α) : List α → Except ε (List α)
  | [] => Except.ok []
  | x :: l =>
    match c x with
    | Except.error e => Except.error e
    | Except.ok y =>
      match copyN c l with
      | Except.error e => Except.error e
      | Except.ok l2 => Except.ok (y :: l2)

/-- `std::copy_n` with a fallible copy assignment: the targets are assigned in
order; when an assignment throws, the targets already assigned keep their new
values, the remaining ones keep their old values, and the error carries that
partially overwritten target range. -/
def overwriteSeq {α ε : Type} (c : α → Except ε α) :
    List α → List α → Except (ε × List α) (List α)
  | dst, [] => Except.ok dst
  | [], _ :: _ => Except.ok []
  | d :: dl, x :: sl =>
    match c x with
    | Except.error e => Except.error (e, d :: dl)
    | Except.ok y =>
      match overwriteSeq c dl sl with
      | Except.error (e, dl2) => Except.error (e, y :: dl2)
      | Except.ok dl2 => Except.ok (y :: dl2)

/-- `Reserve` (lines 152-164) when relocation is by copy (the branch taken when
the element's move construction may fail).  The copies go into the fresh block;
on a throw the partial copies are destroyed with the fresh block and `data_`
was never written, so the error carries the unchanged vector. -/
def Vec.reserveF {α ε : Type} (c : α → Except ε α) (v : Vec α) (n : Nat) :
    Except (ε × Vec α) (Vec α) :=
  if n ≤ v.cap then Except.ok v
  else
    match copyN c v.elems with
    | Except.error e => Except.error (e, v)
    | Except.ok l => Except.ok { elems := l, cap := n }

/-- The reallocating branch of `Emplace` (lines 232-246), copy variant: the new
element is constructed first, at `new_data + index`, then the prefix and the
suffix are copied around it.  Each step writes only the fresh block; on a throw
the vector's own block was never written (elements already constructed in the
fresh block are abandoned unDestroyed when it is deallocated, a leak, but the
vector state is intact), so the error carries the unchanged vector. -/
def Vec.emplaceGrowF {α ε : Type} (c : α → Except ε α) (v : Vec α) (i : Nat) (x : α) :
    Except (ε × Vec α) (Vec α) :=
  match c x with
  | Except.error e => Except.error (e, v)
  | Except.ok y =>
    match copyN c (v.elems.take i) with
    | Except.error e => Except.error (e, v)
    | Except.ok pr =>
      match copyN c (v.elems.drop i) with
      | Except.error e => Except.error (e, v)
      | Except.ok suf =>
        Except.ok { elems := pr ++ y :: suf
                    cap := if v.size = 0 then 1 else v.size * 2 }

/-- The tail branch of `Emplace` (line 262, spare capacity and `pos == end()`):
the element is constructed in the first raw slot; on a throw `size_` was not
yet incremented and no live element was touched. -/
def Vec.emplaceEndF {α ε : Type} (c : α → Except ε α) (v : Vec α) (x : α) :
    Except (ε × Vec α) (Vec α) :=
  match c x with
  | Except.error e => Except.error (e, v)
  | Except.ok y => Except.ok { elems := v.elems ++ [y], cap := v.cap }

/-- Copy assignment's reallocating path (lines 114-116): `Vector rhs_copy(rhs)`
copy-constructs every source element into a fresh block of capacity
`rhs.size_`; only on full success is the copy swapped into the target.  On a
throw the error carries the unchanged target. -/
def Vec.copyAssignGrowF {α ε : Type} (c : α → Except ε α) (t s : Vec α) :
    Except (ε × Vec α) (Vec α) :=
  match copyN c s.elems with
  | Except.error e => Except.error (e, t)
  | Except.ok l => Except.ok { elems := l, cap := s.size }

/-- `FillFromOther` (lines 292-298) with fallible copies: `copy_n` overwrites
the first `min` targets in order (a throw leaves the prefix overwritten, the
rest intact — the error carries that state); then the surplus targets are
destroyed; then the tail `uninitialized_copy_n` runs, reading from slot
`index + 1` as in the source (a throw there leaves the target with only the
overwritten prefix live while `size_` still holds the old count — the class
invariant is broken at that point, the error carries the live contents). -/
def Vec.fillFromOtherF {α ε : Type} (c : α → Except ε α) (t s : Vec α) :
    Except (ε × Vec α) (Option (Vec α)) :=
  let index := min s.size t.size
  match overwriteSeq c (t.elems.take index) (s.elems.take index) with
  | Except.error (e, part) =>
      Except.error (e, { elems := part ++ t.elems.drop index, cap := t.cap })
  | Except.ok newOverlap =>
    match s.readRange (index + 1) (s.size - index) with
    | none => Except.ok none
    | some tailVals =>
      match copyN c tailVals with
      | Except.error e => Except.error (e, { elems := newOverlap, cap := t.cap })
      | Except.ok tailCopies =>
          Except.ok (some { elems := newOverlap ++ tailCopies, cap := t.cap })

/-- `operator=(const Vector&)` (lines 112-122) for distinct objects, with
fallible copies. -/
def Vec.copyAssignNeF {α ε : Type} (c : α → Except ε α) (t s : Vec α) :
    Except (ε × Vec α) (Option (Vec α)) :=
  if s.size > t.cap then
    match Vec.copyAssignGrowF c t s with
    | Except.error p => Except.error p
    | Except.ok w => Except.ok (some w)
  else Vec.fillFromOtherF c t s

/-- A concrete fallible copy: copying the value 13 throws, all else succeeds. -/
def cFail : Nat → Except Unit Nat := fun x => if x = 13 then Except.error () else Except.ok x

/-- C3 counterexample: copy assignment through the in-place path
(`s.Size() ≤ t.Capacity()`) is not strongly safe: with `t = ⟨[10, 20], 2⟩`,
`s = ⟨[7, 13], 2⟩` and a copy that throws on 13, the first assignment has
already overwritten `t[0]` when the second throws, leaving `t = ⟨[7, 20], 2⟩`,
not its prior state. -/
theorem copyAssign_inplace_not_strong :
    Vec.copyAssignNeF cFail (⟨[10, 20], 2⟩ : Vec Nat) ⟨[7, 13], 2⟩
      = Except.error ((), ⟨[7, 20], 2⟩) ∧
    (⟨[7, 20], 2⟩ : Vec Nat) ≠ ⟨[10, 20], 2⟩ := by
  exact ⟨rfl, by decide⟩

/-- C3 amended: when an element copy throws, `Reserve`, the reallocating and
end branches of `Emplace`/`Insert`, and copy assignment's reallocating path
leave the vector exactly as it was (the error carries the unchanged state). -/
theorem grow_paths_strong_safety {α ε : Type} (c : α → Except ε α) (v t s : Vec α)
    (n i : Nat) (x : α) (e : ε) (w : Vec α) :
    (Vec.reserveF c v n = Except.error (e, w) → w = v) ∧
    (Vec.emplaceGrowF c v i x = Except.error (e, w) → w = v) ∧
    (Vec.emplaceEndF c v x = Except.error (e, w) → w = v) ∧
    (Vec.copyAssignGrowF c t s = Except.error (e, w) → w = t) := by
  refine ⟨?_, ?_, ?_, ?_⟩
  · intro h
    unfold Vec.reserveF at h
    by_cases hn : n ≤ v.cap
    · simp [hn] at h
    · simp only [hn, if_false] at h
      cases hc : copyN c v.elems with
      | error e2 => simp [hc] at h; exact h.2.symm
      | ok l => simp [hc] at h
  · intro h
    unfold Vec.emplaceGrowF at h
    cases hx : c x with
    | error e1 => simp [hx] at h; exact h.2.symm
    | ok y =>
      cases hpre : copyN c (v.elems.take i) with
      | error e1 => simp [hx, hpre] at h; exact h.2.symm
      | ok pr =>
        cases hsuf : copyN c (v.elems.drop i) with
        | error e1 => simp [hx, hpre, hsuf] at h; exact h.2.symm
        | ok suf => simp [hx, hpre, hsuf] at h
  · intro h
    unfold Vec.emplaceEndF at h
    cases hx : c x with
    | error e1 => simp [hx] at h; exact h.2.symm
    | ok y => simp [hx] at h
  · intro h
    unfold Vec.copyAssignGrowF at h
    cases hc : copyN c s.elems with
    | error e2 => simp [hc] at h; exact h.2.symm
    | ok l => simp [hc] at h

/-- Witness for `grow_paths_strong_safety`: concrete throwing runs of all four
paths, each leaving the corresponding vector unchanged. -/
theorem grow_paths_strong_safety_witness :
    (Vec.reserveF cFail (⟨[13], 1⟩ : Vec Nat) 2 = Except.error ((), ⟨[13], 1⟩)) ∧
    (Vec.emplaceGrowF cFail (⟨[13], 1⟩ : Vec Nat) 0 5 = Except.error ((), ⟨[13], 1⟩)) ∧
    (Vec.emplaceEndF cFail (⟨[5], 2⟩ : Vec Nat) 13 = Except.error ((), ⟨[5], 2⟩)) ∧
    (Vec.copyAssignGrowF cFail (⟨[], 0⟩ : Vec Nat) ⟨[13], 1⟩ = Except.error ((), ⟨[], 0⟩)) ∧
    (⟨[13], 1⟩ : Vec Nat) = ⟨[13], 1⟩ ∧
    (⟨[5], 2⟩ : Vec Nat) = ⟨[5], 2⟩ ∧
    (⟨[], 0⟩ : Vec Nat) = ⟨[], 0⟩ :=
  ⟨rfl, rfl, rfl, rfl,
    (grow_paths_strong_safety cFail (⟨[13], 1⟩ : Vec Nat) (⟨[13], 1⟩ : Vec Nat)
      (⟨[13], 1⟩ : Vec Nat) 2 0 5 () (⟨[13], 1⟩ : Vec Nat)).1 rfl,
    (grow_paths_strong_safety cFail (⟨[5], 2⟩ : Vec Nat) (⟨[5], 2⟩ : Vec Nat)
      (⟨[5], 2⟩ : Vec Nat) 0 0 13 () (⟨[5], 2⟩ : Vec Nat)).2.2.1 rfl,
    (grow_paths_strong_safety cFail (⟨[], 0⟩ : Vec Nat) (⟨[], 0⟩ : Vec Nat)
      (⟨[13], 1⟩ : Vec Nat) 0 0 0 () (⟨[], 0⟩ : Vec Nat)).2.2.2 rfl⟩

/-- Modelled from the spec: the Optional Box's empty-access error (spec §7); the
box's own source file is not under `src/`. -/
inductive EmptyAccessError where
  | badOptionalAccess
deriving DecidableEq, Repr

/-- Modelled from the spec: the Optional Box (spec §3, §4.3) — a single slot
that may hold a constructed value plus a presence flag; its source file is not
under `src/` (only the dynamic array's `vector.h` is present).  The invariant
"flag true iff the slot holds a value" makes the pair one `Option`. -/
structure OptionalBox (α : Type) where
  slot : Option α
deriving DecidableEq, Repr

/-- Modelled from the spec: default construction yields an empty box. -/
def OptionalBox.mkEmpty {α : Type} : OptionalBox α := ⟨none⟩

/-- Modelled from the spec: `has_value()` reads the presence flag. -/
def OptionalBox.hasValue {α : Type} (b : OptionalBox α) : Bool := b.slot.isSome

/-- Modelled from the spec: `reset()` destroys the held value if present and
clears the flag. -/
def OptionalBox.reset {α : Type} (_b : OptionalBox α) : OptionalBox α := ⟨none⟩

/-- Modelled from the spec: a successful `emplace(args...)` destroys any held
value, constructs the new one in place and sets the flag. -/
def OptionalBox.emplace {α : Type} (_b : OptionalBox α) (x : α) : OptionalBox α := ⟨some x⟩

/-- Modelled from the spec: the checked `value()` accessor — performs the
presence check and raises the empty-access error when the flag is false. -/
def OptionalBox.value {α : Type} (b : OptionalBox α) : Except EmptyAccessError α :=
  match b.slot with
  | some x => Except.ok x
  | none => Except.error EmptyAccessError.badOptionalAccess

/-- C9: `has_value()` is false after default construction and after `reset()`,
true right after a successful `emplace`, and the checked accessor raises the
empty-access error exactly when `has_value()` is false. -/
theorem optionalBox_flag_and_checked_access {α : Type} (b : OptionalBox α) (x : α) :
    (OptionalBox.mkEmpty : OptionalBox α).hasValue = false ∧
    (b.reset).hasValue = false ∧
    (b.emplace x).hasValue = true ∧
    (b.value = Except.error EmptyAccessError.badOptionalAccess ↔ b.hasValue = false) := by
  obtain ⟨s⟩ := b
  cases s <;> simp [OptionalBox.mkEmpty, OptionalBox.hasValue, OptionalBox.reset,
    OptionalBox.emplace, OptionalBox.value]
